import Mathlib

/-!
Verification of the plotly JSON generator (bin/weewx/plotlygenerator.py).

This file gives a shallow embedding of the series-assembly and
layout-synthesis pipeline of the generator, and proves or refutes the
frozen claims about it.  Machine floats of the source are embedded as
rationals, Python lists as Lean lists, missing values (None) as Option,
and exceptions as Except.  External collaborators (the data source, the
unit converter, the transcendental functions of the math module) enter
the model as oracle inputs carried by the line records, exactly where the
source consumes their results.
-/

namespace Plotly

/-- Decidable equality for Except values, needed to evaluate the model on
concrete inputs. -/
instance {ε α : Type} [DecidableEq ε] [DecidableEq α] : DecidableEq (Except ε α) := fun a b =>
  match a, b with
  | .ok x, .ok y =>
      if h : x = y then .isTrue (by rw [h]) else .isFalse (by intro hc; cases hc; exact h rfl)
  | .error x, .error y =>
      if h : x = y then .isTrue (by rw [h]) else .isFalse (by intro hc; cases hc; exact h rfl)
  | .ok _, .error _ => .isFalse (by intro hc; cases hc)
  | .error _, .ok _ => .isFalse (by intro hc; cases hc)

/-! ## Color conversion (_bgr_to_css, source lines 910-915) -/

/-- Two lowercase hexadecimal digits, the rendering of the Python format
"%02x" for an argument below 256. -/
def hex2 (n : Nat) : String :=
  String.mk [Nat.digitChar (n / 16), Nat.digitChar (n % 16)]

/-- Embedding of _bgr_to_css: blue is bits 16-23, green bits 8-15, red
bits 0-7 of the packed integer, emitted as a CSS hex color string. -/
def bgr_to_css (bgr : Nat) : String :=
  let blue := (bgr &&& 0xFF0000) >>> 16
  let green := (bgr &&& 0x00FF00) >>> 8
  let red := bgr &&& 0x0000FF
  "#" ++ hex2 red ++ hex2 green ++ hex2 blue

/-- Claim-side helper: the rrggbb hex string built from the three byte
values of a color, red first. -/
def rgb_hex (red green blue : Nat) : String :=
  "#" ++ hex2 red ++ hex2 green ++ hex2 blue

/-! ## _all_equal (source lines 929-953) -/

/-- Embedding of _all_equal: an empty iterable counts as all-equal,
otherwise every later value is compared with the first. -/
def all_equal {α : Type} [DecidableEq α] : List α → Bool
  | [] => true
  | a :: l => l.all fun v => v = a

/-! ## Gap insertion (_add_gaps, source lines 889-907) -/

/-- Loop body of _add_gaps over the zipped sample list.  The first
argument holds the x of the previous sample when the previous y was
non-null (the variable x0 of the source). -/
def add_gaps_aux (maxdx : ℚ) : Option ℚ → List (ℚ × Option ℚ) → List (ℚ × Option ℚ)
  | _, [] => []
  | x0w, (x1, y1) :: rest =>
    let tail := (x1, y1) ::
      add_gaps_aux maxdx (match y1 with | none => none | some _ => some x1) rest
    match x0w, y1 with
    | some x0, some _ =>
        if x1 - x0 > maxdx then (x1 - (x1 - x0) / 2, none) :: tail else tail
    | _, _ => tail

/-- Embedding of _add_gaps: zip the two input lists, run the loop with no
previous sample, and split the result back into parallel lists. -/
def add_gaps (x : List ℚ) (y : List (Option ℚ)) (maxdx : ℚ) :
    List ℚ × List (Option ℚ) :=
  let g := add_gaps_aux maxdx none (x.zip y)
  (g.map Prod.fst, g.map Prod.snd)

/-- Modelled from the claim wording: between every pair of consecutive
samples that both carry non-null values and whose time delta exceeds the
threshold, exactly one null-valued sample at the temporal midpoint is
inserted, and nothing is inserted anywhere else. -/
def gap_spec (maxdx : ℚ) : List (ℚ × Option ℚ) → List (ℚ × Option ℚ)
  | [] => []
  | [p] => [p]
  | (x0, y0) :: (x1, y1) :: rest =>
    (x0, y0) ::
      (if y0.isSome ∧ y1.isSome ∧ x1 - x0 > maxdx then
        ((x0 + x1) / 2, none) :: gap_spec maxdx ((x1, y1) :: rest)
      else
        gap_spec maxdx ((x1, y1) :: rest))

/-! ## Null stripping (gen_plot, source lines 318-340) -/

/-- Filter used on the start and stop arrays: keep the entry at index i
exactly when the value at index i is non-null (the list comprehensions of
lines 324-335, with the index pairing expressed by zipping). -/
def keep_at_some (p : ℚ × Option ℚ) : Option ℚ :=
  match p.2 with
  | some _ => some p.1
  | none => none

/-- Embedding of the missing-data removal of gen_plot: when a null value
is present, the positions of null values are dropped from the start, stop
and value arrays together; otherwise the three arrays pass unchanged. -/
def strip_nulls (s e : List ℚ) (v : List (Option ℚ)) :
    List ℚ × List ℚ × List (Option ℚ) :=
  if none ∈ v then
    ((s.zip v).filterMap keep_at_some,
     (e.zip v).filterMap keep_at_some,
     v.filter fun o => o.isSome)
  else (s, e, v)

/-! ## Bar widths (gen_plot line 384, _gen_line lines 518-527) -/

/-- Embedding of the interval_vec computation: per-sample width is the
stop time minus the start time. -/
def interval_vec (start stop : List ℚ) : List ℚ :=
  (start.zip stop).map fun p => p.2 - p.1

/-- Embedding of the width emitted for a bar series: when the width list
is non-empty (truthy) and all widths are equal, a single scalar width in
milliseconds; otherwise the whole list, each entry in milliseconds. -/
def bar_width_ms (bar_width : List ℚ) : ℚ ⊕ List ℚ :=
  if bar_width ≠ [] ∧ all_equal bar_width then
    Sum.inl (bar_width.headI * 1000)
  else
    Sum.inr (bar_width.map fun i => i * 1000)

/-! ## Vector hover direction (_gen_line lines 585-592) -/

/-- The Python float modulo for a positive divisor: the representative of
the residue class lying in the interval from zero (inclusive) to the
divisor (exclusive). -/
def pymod (a b : ℚ) : ℚ := a - b * ⌊a / b⌋

/-- Embedding of the hover-text direction computation: phi_deg is the
complex argument already converted to degrees (math.degrees of the source
is a scaling by a transcendental constant, so the model receives the
degree value directly), r is the magnitude from cmath.polar. -/
def vec_direction (r phi_deg : ℚ) : ℚ :=
  let deg := pymod (90 - phi_deg) 360
  if r > 1/1000 ∧ deg < 1 then 360 else deg

/-! ## Vector aspect-ratio scales (_gen_line lines 569-575) -/

/-- Division as Python performs it on floats: a ZeroDivisionError is
raised when the divisor is zero. -/
def checked_div (a b : ℚ) : Except Unit ℚ :=
  if b = 0 then .error () else .ok (a / b)

/-- Python max over a non-empty list (defaults to 0 on the empty list,
which the source never reaches for this computation). -/
def maxQ : List ℚ → ℚ
  | [] => 0
  | a :: l => l.foldl max a

/-- Python min over a non-empty list (defaults to 0 on the empty list,
which the source never reaches for this computation). -/
def minQ : List ℚ → ℚ
  | [] => 0
  | a :: l => l.foldl min a

/-- The y range used for the vector scale: the difference of the two
supplied y-axis bounds when both are present, otherwise the spread of the
rotated imaginary components. -/
def yrange_of (yscale : Option ℚ × Option ℚ) (ys : List ℚ) : ℚ :=
  match yscale with
  | (some lo, some hi) => hi - lo
  | _ => maxQ ys - minQ ys

/-- Embedding of the scale computation of the vector branch: xpscale is
the time span per pixel, ypscale the y range per pixel, and the result
xypscale their quotient, with every division checked for a zero
divisor. -/
def vector_scales (yscale : Option ℚ × Option ℚ) (plot_w plot_h : ℚ)
    (minstamp maxstamp : ℚ) (ys : List ℚ) : Except Unit ℚ :=
  match checked_div (maxstamp - minstamp) plot_w with
  | .error e => .error e
  | .ok xpscale =>
    match checked_div (yrange_of yscale ys) plot_h with
    | .error e => .error e
    | .ok ypscale => checked_div xpscale ypscale

/-! ## Font manifest (_gen_plotly lines 816-827) -/

/-- The set of font families referenced by the layout, as the deduplicated
list of the four always-referenced family options plus, when a vector line
was present, the rose label family (the Python set built at lines
818-825). -/
def font_family_list (top axis bottom unit rose : Option String)
    (has_vector : Bool) : List (Option String) :=
  ([top, axis, bottom, unit] ++ if has_vector then [rose] else []).dedup

/-- Embedding of the manifest construction: font_families.remove(None)
succeeds only when None is a member of the set, raising KeyError
otherwise; on success the configured family names remain. -/
def font_manifest (top axis bottom unit rose : Option String)
    (has_vector : Bool) : Except Unit (List String) :=
  let fams := font_family_list top axis bottom unit rose has_vector
  if none ∈ fams then .ok (fams.filterMap id) else .error ()

/-! ## The gen_plot pipeline (source lines 155-446)

The model keeps the full control flow of the per-line loop of gen_plot
together with the parts of _gen_line and _gen_plotly that decide which
series are emitted, whether the compass rose is drawn and whether the
plot generation aborts.  The external data source is an oracle: each line
record carries the result of its get_aggregate not_null query and of its
get_series fetch.  Values are pairs of rationals (the real and imaginary
components of the complex samples; for line and bar plots only the first
component is meaningful).  The cosine and sine of the rotation angle,
transcendental in the source, are likewise carried as an oracle pair.
Label, color, width and marker resolution and the time arrays do not
influence which series exist, whether the rose is drawn or whether the
call aborts, and are elided. -/

/-- Python str.lower restricted to the character-wise case mapping (the
option values are ASCII words, where the two agree). -/
def str_lower (s : String) : String := String.mk (s.data.map Char.toLower)

/-- Complex multiplication on pairs (the rotation by vector_rotate_mul at
source line 562). -/
def mulC (a b : ℚ × ℚ) : ℚ × ℚ :=
  (a.1 * b.1 - a.2 * b.2, a.1 * b.2 + a.2 * b.1)

/-- The kind tag of one emitted series record. -/
inductive SeriesKind : Type
  | line
  | bar
  | vectorSeg
deriving DecidableEq, Repr

/-- One configured line of the plot, with the oracle results of its
external queries. -/
structure LineOpts : Type where
  /-- raw value of the plot_type option, None when absent -/
  plot_type : Option String
  /-- raw value of the aggregate_type option -/
  aggregate_type : Option String
  /-- whether the aggregate_interval key is present -/
  has_aggregate_interval : Bool
  /-- oracle: result of get_aggregate with the not_null kind during the
  empty check; an error stands for weewx.UnknownAggregation -/
  not_null_agg : Except Unit Bool
  /-- oracle: result of get_series followed by the unit conversion (the
  converter preserves length and null positions); an error stands for
  weewx.UnknownType -/
  series : Except Unit (List ℚ × List ℚ × List (Option (ℚ × ℚ)))
  /-- raw value of the vector_rotate option -/
  vector_rotate : Option ℚ
  /-- oracle: the pair of the cosine and sine of the rotation angle in
  radians, as computed at source lines 559-561 -/
  rot_mul : ℚ × ℚ
deriving DecidableEq

/-- Embedding of _skip_if_empty (source lines 1114-1134): no check domain
means no skipping; an UnknownAggregation from the not_null aggregate
counts as empty; otherwise the line is empty when the aggregate reports
no non-null value. -/
def skip_if_empty (check_domain : Bool) (l : LineOpts) : Bool :=
  if check_domain = false then false
  else
    match l.not_null_agg with
    | .error _ => true
    | .ok val => !val

/-- Whether an aggregation was specified (source line 257: the values
None, the empty string, and the two spellings of None disable it). -/
def agg_specified (l : LineOpts) : Bool :=
  match l.aggregate_type with
  | none => false
  | some s => !(s = "" || s = "None" || s = "none")

/-- Outcome of the loop body for one line, when the body does not abort
the whole plot. -/
inductive LineOutcome : Type
  | skippedEmpty
  | failedLine
  | emitted (kinds : List SeriesKind) (raw_vector : Bool)
deriving DecidableEq

/-- Embedding of one iteration of the per-line loop of gen_plot (source
lines 231-427) together with the series-count behavior of _gen_line.  An
error aborts the whole gen_plot call: it stands for the propagated
weewx.UnknownType of line 292 (the swallowing branch is unreachable since
skip is always False there, lines 249-251) or for the ZeroDivisionError
of line 575 when the vector y range is zero.  The emitted outcome records
the kinds of the series appended to data and whether the raw plot_type
string equals the lowercase word vector (the comparison of line 425 that
controls last_vector_options). -/
def process_line (check_domain : Bool) (yscale : Option ℚ × Option ℚ)
    (l : LineOpts) : Except Unit LineOutcome :=
  if skip_if_empty check_domain l then .ok .skippedEmpty
  else
    -- from here on have_data is True (source line 253)
    if agg_specified l ∧ ¬ l.has_aggregate_interval then .ok .failedLine
    else
      match l.series with
      | .error _ => .error ()
      | .ok (_start_v, _stop_v, vals) =>
        let pt := str_lower (l.plot_type.getD "line")
        let raw_vec := l.plot_type == some "vector"
        -- midpoint shift (lines 297-306) moves times only; null stripping
        -- (lines 318-340) leaves the non-null values in order:
        let y := vals.filterMap id
        if pt = "vector" then
          if y = [] then .ok (.emitted [SeriesKind.vectorSeg] raw_vec)
          else
            let rotated :=
              if l.vector_rotate.getD 0 ≠ 0 then y.map (fun d => mulC d l.rot_mul) else y
            let ys := rotated.map Prod.snd
            if yrange_of yscale ys = 0 then .error ()
            else .ok (.emitted (y.map fun _ => SeriesKind.vectorSeg) raw_vec)
        else if pt = "bar" then .ok (.emitted [SeriesKind.bar] raw_vec)
        else if pt = "line" then .ok (.emitted [SeriesKind.line] raw_vec)
        else .ok .failedLine

/-- Plot-level options of the model: whether skip_if_empty resolved to a
check domain, the user y-scale hints, and the five font family options
read by _gen_plotly. -/
structure PlotOpts : Type where
  check_domain : Bool
  yscale : Option ℚ × Option ℚ
  top_family : Option String
  axis_family : Option String
  bottom_family : Option String
  unit_family : Option String
  rose_family : Option String
deriving DecidableEq

/-- The parts of the output document the claims are about: the kind tags
of the data series in order, whether the compass-rose shapes and
annotation are in the layout, and the font manifest. -/
structure PlotDoc : Type where
  data : List SeriesKind
  rose_present : Bool
  fonts : List String
deriving DecidableEq, Repr

/-- The per-line loop of gen_plot: threads the data list, the have_data
flag and the presence of a last vector line through the lines in order.
An abort of any line body aborts the whole loop. -/
def gen_plot_loop (cd : Bool) (ys : Option ℚ × Option ℚ) :
    List LineOpts → Except Unit (List SeriesKind × Bool × Bool)
  | [] => .ok ([], false, false)
  | l :: rest =>
    match process_line cd ys l with
    | .error e => .error e
    | .ok .skippedEmpty => gen_plot_loop cd ys rest
    | .ok .failedLine =>
      match gen_plot_loop cd ys rest with
      | .error e => .error e
      | .ok (d, _, lv) => .ok (d, true, lv)
    | .ok (.emitted ks rv) =>
      match gen_plot_loop cd ys rest with
      | .error e => .error e
      | .ok (d, _, lv) => .ok (ks ++ d, true, rv || lv)

/-- Embedding of gen_plot: run the per-line loop, synthesize the layout
(_gen_plotly draws the rose iff a last vector line was recorded and
builds the font manifest), and return the document only when some line
supplied data (source lines 445-446). -/
def gen_plot (opts : PlotOpts) (lines : List LineOpts) :
    Except Unit (Option PlotDoc) :=
  match gen_plot_loop opts.check_domain opts.yscale lines with
  | .error e => .error e
  | .ok (d, have_data, lv) =>
    match font_manifest opts.top_family opts.axis_family opts.bottom_family
        opts.unit_family opts.rose_family lv with
    | .error e => .error e
    | .ok fonts => .ok (if have_data then some ⟨d, lv, fonts⟩ else none)

/-- The series a single line contributes to the data list, when its loop
body does not abort. -/
def line_emission (cd : Bool) (ys : Option ℚ × Option ℚ) (l : LineOpts) :
    List SeriesKind :=
  match process_line cd ys l with
  | .ok (.emitted ks _) => ks
  | _ => []

/-- Whether a single line records itself as the last vector line. -/
def line_raw_vector (cd : Bool) (ys : Option ℚ × Option ℚ) (l : LineOpts) :
    Bool :=
  match process_line cd ys l with
  | .ok (.emitted _ rv) => rv
  | _ => false

/-- Whether a line reaches the data-fetch step of the pipeline and the
fetch succeeds: it passes the empty check, resolves its aggregation, and
its get_series query does not fail. -/
def reached_fetch (cd : Bool) (l : LineOpts) : Bool :=
  !skip_if_empty cd l
    && !(agg_specified l && !l.has_aggregate_interval)
    && (match l.series with | .ok _ => true | .error _ => false)

/-- Whether a gen_plot result is a returned document. -/
def doc_produced : Except Unit (Option PlotDoc) → Bool
  | .ok (some _) => true
  | _ => false

/-! ## Concrete inputs used to evaluate the model -/

/-- Plot options with the empty check disabled, automatic y scaling and no
configured font families. -/
def plainOpts : PlotOpts :=
  { check_domain := false, yscale := (none, none),
    top_family := none, axis_family := none, bottom_family := none,
    unit_family := none, rose_family := none }

/-- A line whose plot_type option carries the capitalized spelling Vector:
the lowercased dispatch of source line 295 treats it as a vector line, the
raw comparison of source line 425 does not. -/
def vectorCapLine : LineOpts :=
  { plot_type := some "Vector", aggregate_type := none,
    has_aggregate_interval := false, not_null_agg := .ok true,
    series := .ok ([0, 1], [1, 2], [some (1, 2), some (3, 4)]),
    vector_rotate := none, rot_mul := (1, 0) }

/-- The same line with the lowercase spelling vector. -/
def vectorLowLine : LineOpts := { vectorCapLine with plot_type := some "vector" }

/-- A line whose observation type is unknown to the data source: the
get_series oracle reports weewx.UnknownType. -/
def unknownTypeLine : LineOpts :=
  { plot_type := some "line", aggregate_type := none,
    has_aggregate_interval := false, not_null_agg := .ok true,
    series := .error (), vector_rotate := none, rot_mul := (1, 0) }

/-- A well-behaved line plotted as a plain line. -/
def goodLine : LineOpts :=
  { plot_type := some "line", aggregate_type := none,
    has_aggregate_interval := false, not_null_agg := .ok true,
    series := .ok ([0], [1], [some (1, 0)]), vector_rotate := none,
    rot_mul := (1, 0) }

/-- A line with an unrecognized plot kind. -/
def badKindLine : LineOpts := { goodLine with plot_type := some "spline" }

/-- A line that requests aggregation without an aggregate interval. -/
def noIntervalLine : LineOpts :=
  { goodLine with aggregate_type := some "max", has_aggregate_interval := false }

/-- An all-null line under an enabled empty check. -/
def emptyLine : LineOpts := { goodLine with not_null_agg := .ok false }

/-- Options with the empty check enabled. -/
def checkedOpts : PlotOpts := { plainOpts with check_domain := true }

/-! ## Structural lemmas about the per-line loop -/

/-- The loop body reports an empty skip exactly when the empty check
classified the line as empty. -/
lemma process_line_skipped_iff (cd : Bool) (ys : Option ℚ × Option ℚ) (l : LineOpts) :
    process_line cd ys l = .ok .skippedEmpty ↔ skip_if_empty cd l = true := by
  unfold process_line
  by_cases h : skip_if_empty cd l
  · simp [h]
  · simp only [h, Bool.false_eq_true, if_false, iff_false]
    split
    · simp
    · split
      · simp
      · split <;> split_ifs <;> simp

/-- When no line body aborts, the loop collects every line's own emission
in declaration order, reports data exactly when some line passed the
empty check, and records a last vector line exactly when some line
carries the raw vector plot type. -/
lemma gen_plot_loop_ok (cd : Bool) (ys : Option ℚ × Option ℚ) :
    ∀ lines : List LineOpts,
      (∀ l ∈ lines, process_line cd ys l ≠ .error ()) →
      gen_plot_loop cd ys lines =
        .ok (lines.flatMap (line_emission cd ys),
             lines.any (fun l => !skip_if_empty cd l),
             lines.any (line_raw_vector cd ys)) := by
  intro lines
  induction lines with
  | nil => intro _; rfl
  | cons l rest ih =>
    intro h
    have hl : process_line cd ys l ≠ .error () := h l (List.mem_cons_self l rest)
    have hrest := ih fun x hx => h x (List.mem_cons_of_mem l hx)
    simp only [gen_plot_loop, hrest]
    rcases hout : process_line cd ys l with e | out
    · cases e; exact absurd hout hl
    · cases out with
      | skippedEmpty =>
        have hskip : skip_if_empty cd l = true :=
          (process_line_skipped_iff cd ys l).mp hout
        simp [line_emission, line_raw_vector, hout, hskip]
      | failedLine =>
        have hskip : skip_if_empty cd l = false := by
          rcases hsk : skip_if_empty cd l with _ | _
          · rfl
          · have := (process_line_skipped_iff cd ys l).mpr hsk
            rw [this] at hout
            exact absurd (Except.ok.inj hout).symm (by simp)
        simp [line_emission, line_raw_vector, hout, hskip]
      | emitted ks rv =>
        have hskip : skip_if_empty cd l = false := by
          rcases hsk : skip_if_empty cd l with _ | _
          · rfl
          · have := (process_line_skipped_iff cd ys l).mpr hsk
            rw [this] at hout
            exact absurd (Except.ok.inj hout).symm (by simp)
        simp [line_emission, line_raw_vector, hout, hskip]

/-- When one of the four always-referenced font family options is
unconfigured, the manifest construction succeeds. -/
lemma font_manifest_ok (top axis bottom unit rose : Option String) (hv : Bool)
    (h : none ∈ [top, axis, bottom, unit]) :
    ∃ fonts, font_manifest top axis bottom unit rose hv = .ok fonts := by
  have hmem : none ∈ font_family_list top axis bottom unit rose hv := by
    rw [font_family_list, List.mem_dedup, List.mem_append]
    exact Or.inl h
  exact ⟨_, by rw [font_manifest, if_pos hmem]⟩

/-- The loop body of the capitalized vector line emits two vector-kind
series and does not record a last vector line. -/
lemma process_vectorCapLine :
    process_line false (none, none) vectorCapLine =
      .ok (.emitted [.vectorSeg, .vectorSeg] false) := by
  have hlow : str_lower "Vector" = "vector" := by rfl
  have hraw : ((some "Vector" : Option String) == some "vector") = false := by rfl
  have hy : yrange_of (none, none) [2, 4] = 2 := by
    simp only [yrange_of, maxQ, minQ, List.foldl]
    norm_num
  simp only [process_line, skip_if_empty, agg_specified, vectorCapLine, hlow, hraw,
    List.filterMap_cons, List.filterMap_nil, Option.getD, List.map_cons, List.map_nil, mulC]
  norm_num [hy]
  simp

/-- The loop body of the lowercase vector line emits the same two series
and records a last vector line. -/
lemma process_vectorLowLine :
    process_line false (none, none) vectorLowLine =
      .ok (.emitted [.vectorSeg, .vectorSeg] true) := by
  have hlow : str_lower "vector" = "vector" := by rfl
  have hraw : ((some "vector" : Option String) == some "vector") = true := by rfl
  have hy : yrange_of (none, none) [2, 4] = 2 := by
    simp only [yrange_of, maxQ, minQ, List.foldl]
    norm_num
  simp only [process_line, skip_if_empty, agg_specified, vectorLowLine, vectorCapLine,
    hlow, hraw, List.filterMap_cons, List.filterMap_nil, Option.getD,
    List.map_cons, List.map_nil, mulC]
  norm_num [hy]
  simp

/-! ## Claim theorems -/

/-- Claim C1: the compass-rose shapes and annotation are keyed to the raw
plot_type string being exactly the lowercase word vector, not to a
vector-kind line having been emitted.  A line configured with the
capitalized spelling Vector is dispatched through the lowercasing of
source line 295 and emits vector-kind series, yet the raw comparison of
source line 425 fails, so the rose is absent; with the lowercase spelling
the same plot carries the rose.  This refutes the only-if-absent half of
the claim at a concrete input and exhibits the inconsistent case handling
between the two comparisons. -/
theorem c1_rose_requires_exact_case :
    gen_plot plainOpts [vectorCapLine] =
        .ok (some ⟨[.vectorSeg, .vectorSeg], false, []⟩) ∧
    gen_plot plainOpts [vectorLowLine] =
        .ok (some ⟨[.vectorSeg, .vectorSeg], true, []⟩) := by
  constructor
  · simp only [gen_plot, gen_plot_loop, plainOpts, process_vectorCapLine]
    rfl
  · simp only [gen_plot, gen_plot_loop, plainOpts, process_vectorLowLine]
    rfl

/-- Claim C2 counterexample: an unknown observation type on a line whose
empty check did not classify it as empty aborts the whole gen_plot call,
so the second, well-behaved line is never processed and no layout
document is produced, although the same second line alone yields a
document. -/
theorem c2_unknown_type_aborts_plot :
    gen_plot plainOpts [unknownTypeLine, goodLine] = .error () ∧
    gen_plot plainOpts [goodLine] = .ok (some ⟨[.line], false, []⟩) ∧
    skip_if_empty plainOpts.check_domain unknownTypeLine = false := by
  refine ⟨by rfl, by rfl, by rfl⟩

/-- Claim C2 amended: when no line raises an unknown observation type
past its empty check (and no vector line divides by a zero y range), an
unrecognized plot kind or a missing aggregate interval only silences the
affected line: every line contributes exactly its own series in order and
the layout document is still produced.  An unknown observation type, by
contrast, always aborts the plot, because a line whose empty check
classified it as empty was already skipped before the fetch. -/
theorem c2_line_failures_isolated (opts : PlotOpts) (lines : List LineOpts)
    (hl : ∀ l ∈ lines, process_line opts.check_domain opts.yscale l ≠ .error ())
    (hf : none ∈ [opts.top_family, opts.axis_family, opts.bottom_family,
                  opts.unit_family]) :
    ∃ fonts, gen_plot opts lines =
      .ok (if lines.any (fun l => !skip_if_empty opts.check_domain l) then
            some ⟨lines.flatMap (line_emission opts.check_domain opts.yscale),
                  lines.any (line_raw_vector opts.check_domain opts.yscale),
                  fonts⟩
          else none) := by
  obtain ⟨fonts, hfonts⟩ := font_manifest_ok opts.top_family opts.axis_family
    opts.bottom_family opts.unit_family opts.rose_family
    (lines.any (line_raw_vector opts.check_domain opts.yscale)) hf
  refine ⟨fonts, ?_⟩
  rw [gen_plot, gen_plot_loop_ok _ _ lines hl]
  simp only [hfonts]

/-- Claim C2 witness: a good line followed by a line with an unrecognized
plot kind still produces the document with the good line's series. -/
theorem c2_isolation_witness :
    (∀ l ∈ [goodLine, badKindLine],
        process_line plainOpts.check_domain plainOpts.yscale l ≠ .error ()) ∧
    ∃ fonts, gen_plot plainOpts [goodLine, badKindLine] =
      .ok (some ⟨[.line], false, fonts⟩) := by
  have hl : ∀ l ∈ [goodLine, badKindLine],
      process_line plainOpts.check_domain plainOpts.yscale l ≠ .error () := by
    intro l hm
    rcases List.mem_cons.mp hm with h | h
    · rw [h]
      intro hc
      exact absurd hc (by
        rw [show process_line plainOpts.check_domain plainOpts.yscale goodLine =
              .ok (.emitted [.line] false) from by rfl]
        simp)
    · rw [List.mem_singleton.mp h]
      intro hc
      exact absurd hc (by
        rw [show process_line plainOpts.check_domain plainOpts.yscale badKindLine =
              .ok .failedLine from by rfl]
        simp)
  refine ⟨hl, ?_⟩
  obtain ⟨fonts, hfonts⟩ :=
    c2_line_failures_isolated plainOpts [goodLine, badKindLine] hl (by simp [plainOpts])
  exact ⟨fonts, by rw [hfonts]; rfl⟩

/-- Claim C3 counterexample: a line that requests aggregation without an
aggregate interval never reaches the data-fetch step, yet have_data was
already set right after the empty check, so a document is produced.  This
refutes the claimed equivalence between producing a document and some
line reaching the fetch successfully. -/
theorem c3_have_data_set_before_fetch :
    gen_plot plainOpts [noIntervalLine] = .ok (some ⟨[], false, []⟩) ∧
    doc_produced (gen_plot plainOpts [noIntervalLine]) = true ∧
    reached_fetch plainOpts.check_domain noIntervalLine = false := by
  refine ⟨by rfl, by rfl, by rfl⟩

/-- Claim C3 amended: when no line aborts the plot and the font manifest
step cannot fault, a document is returned exactly when at least one line
passed the empty check, whether or not it later reached the fetch; in
particular when every line is skipped as empty the call returns None and
no document is emitted. -/
theorem c3_document_iff_line_passed_empty_check (opts : PlotOpts)
    (lines : List LineOpts)
    (hl : ∀ l ∈ lines, process_line opts.check_domain opts.yscale l ≠ .error ())
    (hf : none ∈ [opts.top_family, opts.axis_family, opts.bottom_family,
                  opts.unit_family]) :
    doc_produced (gen_plot opts lines) =
        lines.any (fun l => !skip_if_empty opts.check_domain l) ∧
    ((∀ l ∈ lines, skip_if_empty opts.check_domain l = true) →
      gen_plot opts lines = .ok none) := by
  obtain ⟨fonts, hfonts⟩ := font_manifest_ok opts.top_family opts.axis_family
    opts.bottom_family opts.unit_family opts.rose_family
    (lines.any (line_raw_vector opts.check_domain opts.yscale)) hf
  have hplot : gen_plot opts lines =
      .ok (if lines.any (fun l => !skip_if_empty opts.check_domain l) then
            some ⟨lines.flatMap (line_emission opts.check_domain opts.yscale),
                  lines.any (line_raw_vector opts.check_domain opts.yscale),
                  fonts⟩
          else none) := by
    rw [gen_plot, gen_plot_loop_ok _ _ lines hl]
    simp only [hfonts]
  constructor
  · rw [hplot]
    cases h : lines.any fun l => !skip_if_empty opts.check_domain l <;>
      simp [h, doc_produced]
  · intro hall
    have hany : lines.any (fun l => !skip_if_empty opts.check_domain l) = false := by
      simp only [List.any_eq_false]
      intro l hm
      simp [hall l hm]
    rw [hplot, hany]
    rfl

/-- Claim C3 witness: a single all-null line under an enabled empty check
is skipped and gen_plot returns None. -/
theorem c3_empty_plot_witness :
    (∀ l ∈ [emptyLine], skip_if_empty checkedOpts.check_domain l = true) ∧
    gen_plot checkedOpts [emptyLine] = .ok none := by
  have hl : ∀ l ∈ [emptyLine],
      process_line checkedOpts.check_domain checkedOpts.yscale l ≠ .error () := by
    intro l hm
    rw [List.mem_singleton.mp hm]
    intro hc
    exact absurd hc (by
      rw [show process_line checkedOpts.check_domain checkedOpts.yscale emptyLine =
            .ok .skippedEmpty from by rfl]
      simp)
  have hall : ∀ l ∈ [emptyLine], skip_if_empty checkedOpts.check_domain l = true := by
    intro l hm
    rw [List.mem_singleton.mp hm]
    rfl
  exact ⟨hall,
    (c3_document_iff_line_passed_empty_check checkedOpts [emptyLine] hl
      (by simp [checkedOpts, plainOpts])).2 hall⟩

/-- The Python float modulo with a positive divisor lands in the
half-open interval from zero to the divisor. -/
lemma pymod_bounds (a b : ℚ) (hb : 0 < b) : 0 ≤ pymod a b ∧ pymod a b < b := by
  have hfr : pymod a b = b * Int.fract (a / b) := by
    rw [pymod, Int.fract]
    field_simp
  constructor
  · rw [hfr]
    exact mul_nonneg hb.le (Int.fract_nonneg _)
  · rw [hfr]
    calc b * Int.fract (a / b) < b * 1 := (mul_lt_mul_left hb).mpr (Int.fract_lt_one _)
      _ = b := mul_one b

/-- Claim C4: the hover direction starts from the representative of
90 minus the argument in degrees, reduced modulo 360 into the interval
from 0 to 360; it is remapped to exactly 360 when the magnitude exceeds
the epsilon of one thousandth and the reduced direction lies below one
degree, and it is left unmodified both in the calm case (magnitude at
most the epsilon, where it may be 0) and when the reduced direction is at
least one degree. -/
theorem c4_vector_direction (r phi_deg : ℚ) :
    (0 ≤ pymod (90 - phi_deg) 360 ∧ pymod (90 - phi_deg) 360 < 360) ∧
    (r > 1/1000 → pymod (90 - phi_deg) 360 < 1 → vec_direction r phi_deg = 360) ∧
    (r > 1/1000 → 1 ≤ pymod (90 - phi_deg) 360 →
      vec_direction r phi_deg = pymod (90 - phi_deg) 360) ∧
    (r ≤ 1/1000 → vec_direction r phi_deg = pymod (90 - phi_deg) 360) := by
  refine ⟨pymod_bounds _ _ (by norm_num), ?_, ?_, ?_⟩
  · intro hr hd
    rw [vec_direction, if_pos ⟨hr, hd⟩]
  · intro hr hd
    rw [vec_direction, if_neg]
    rintro ⟨-, hlt⟩
    exact absurd hd (not_le.mpr hlt)
  · intro hr
    rw [vec_direction, if_neg]
    rintro ⟨hgt, -⟩
    exact absurd hr (not_le.mpr hgt)

/-- Claim C4 witness: a due-north non-calm sample reports 360 degrees and
a calm sample keeps its raw reduced direction 0. -/
theorem c4_direction_witness :
    (1 : ℚ) > 1/1000 ∧ pymod (90 - 90) 360 < 1 ∧ vec_direction 1 90 = 360 ∧
    (0 : ℚ) ≤ 1/1000 ∧ vec_direction 0 90 = pymod (90 - 90) 360 := by
  have h1 : (1 : ℚ) > 1/1000 := by norm_num
  have hp : pymod ((90 : ℚ) - 90) 360 = 0 := by
    norm_num [pymod]
  refine ⟨h1, by rw [hp]; norm_num,
    (c4_vector_direction 1 90).2.1 h1 (by rw [hp]; norm_num),
    by norm_num, (c4_vector_direction 0 90).2.2.2 (by norm_num)⟩

/-- Peeling one sample off the claim-side gap description leaves the loop
of the source with the sample recorded as previous point. -/
lemma gap_spec_cons (maxdx : ℚ) :
    ∀ (l : List (ℚ × Option ℚ)) (x0 : ℚ) (y0 : Option ℚ),
      gap_spec maxdx ((x0, y0) :: l) =
        (x0, y0) ::
          add_gaps_aux maxdx
            (match y0 with | none => none | some _ => some x0) l := by
  intro l
  induction l with
  | nil =>
    intro x0 y0
    cases y0 <;> rfl
  | cons p rest ih =>
    intro x0 y0
    obtain ⟨x1, y1⟩ := p
    have hmid : x1 - (x1 - x0) / 2 = (x0 + x1) / 2 := by ring
    cases y0 <;> cases y1 <;>
      simp only [gap_spec, add_gaps_aux, Option.isSome_some, Option.isSome_none,
        true_and, and_true, false_and, and_false, Bool.false_eq_true, if_false,
        ih, hmid]

/-- The loop of the source computes exactly the claim-side description. -/
lemma add_gaps_eq_gap_spec (maxdx : ℚ) :
    ∀ l : List (ℚ × Option ℚ), add_gaps_aux maxdx none l = gap_spec maxdx l := by
  intro l
  cases l with
  | nil => rfl
  | cons p rest =>
    obtain ⟨x0, y0⟩ := p
    rw [gap_spec_cons, add_gaps_aux.eq_def]

/-- Claim C5: gap insertion adds exactly one synthetic null sample at the
temporal midpoint of every consecutive pair of non-null samples whose
time delta exceeds the threshold, and nothing anywhere else; on the
sample input with threshold 2 the single insertion happens at 5.5 between
indices 1 and 2, and the short deltas stay untouched. -/
theorem c5_gap_insertion :
    (∀ (x : List ℚ) (y : List (Option ℚ)) (maxdx : ℚ),
      add_gaps x y maxdx =
        ((gap_spec maxdx (x.zip y)).map Prod.fst,
         (gap_spec maxdx (x.zip y)).map Prod.snd)) ∧
    add_gaps [0, 1, 10, 11] [some 1, some 1, some 1, some 1] 2 =
      ([0, 1, 11/2, 10, 11], [some 1, some 1, none, some 1, some 1]) := by
  constructor
  · intro x y maxdx
    rw [add_gaps, add_gaps_eq_gap_spec]
  · norm_num [add_gaps, add_gaps_aux, List.zip]

/-- Claim C6 counterexample: the emitted bar width is scaled to
milliseconds, so the collapse of the uniform widths 60, 60, 60 yields the
scalar 60000 rather than 60, and the non-uniform widths 60, 60, 61 are
emitted as an array with every entry multiplied by 1000 rather than
unchanged. -/
theorem c6_widths_are_milliseconds :
    bar_width_ms [60, 60, 60] = Sum.inl 60000 ∧
    bar_width_ms [60, 60, 60] ≠ Sum.inl 60 ∧
    bar_width_ms [60, 60, 61] = Sum.inr [60000, 60000, 61000] ∧
    bar_width_ms [60, 60, 61] ≠ Sum.inr [60, 60, 61] := by
  have h1 : bar_width_ms [60, 60, 60] = Sum.inl 60000 := by
    norm_num [bar_width_ms, all_equal]
    simp
  have h2 : bar_width_ms [60, 60, 61] = Sum.inr [60000, 60000, 61000] := by
    norm_num [bar_width_ms, all_equal]
  refine ⟨h1, ?_, h2, ?_⟩
  · rw [h1]
    intro hc
    have := Sum.inl.inj hc
    norm_num at this
  · rw [h2]
    intro hc
    have := Sum.inr.inj hc
    simp only [List.cons.injEq] at this
    norm_num at this

/-- Mapping a binary function over a zip is the pointwise combination of
the two lists. -/
lemma map_zip_eq_zipWith {α β γ : Type} (f : α → β → γ) :
    ∀ (s : List α) (e : List β),
      (s.zip e).map (fun p => f p.1 p.2) = List.zipWith f s e := by
  intro s
  induction s with
  | nil => intro e; rfl
  | cons a l ih =>
    intro e
    cases e with
    | nil => rfl
    | cons b m => simp [ih]

/-- The all-equal check of the source is the pairwise-equality predicate. -/
lemma all_equal_iff {α : Type} [DecidableEq α] (l : List α) :
    all_equal l = true ↔ ∀ a ∈ l, ∀ b ∈ l, a = b := by
  cases l with
  | nil => simp [all_equal]
  | cons x xs =>
    simp only [all_equal, List.all_eq_true, decide_eq_true_eq]
    constructor
    · intro h a ha b hb
      have hx : ∀ c ∈ x :: xs, c = x := by
        intro c hc
        rcases List.mem_cons.mp hc with h1 | h1
        · exact h1
        · exact h c h1
      rw [hx a ha, hx b hb]
    · intro h a ha
      exact h a (List.mem_cons_of_mem x ha) x (List.mem_cons_self x xs)

/-- Claim C6 amended: each per-sample width is the stop time minus the
start time; when the width list is non-empty and all widths are equal the
emitted width collapses to the single scalar of the common width times
1000 (plotly works in milliseconds), and otherwise the full array is
emitted with every entry times 1000; the collapse test agrees with
pairwise equality of the widths. -/
theorem c6_width_collapse (start stop bw : List ℚ) :
    interval_vec start stop = List.zipWith (fun s e => e - s) start stop ∧
    (bw ≠ [] → all_equal bw = true → bar_width_ms bw = Sum.inl (bw.headI * 1000)) ∧
    (all_equal bw = false → bar_width_ms bw = Sum.inr (bw.map fun i => i * 1000)) ∧
    (all_equal bw = true ↔ ∀ a ∈ bw, ∀ b ∈ bw, a = b) := by
  refine ⟨map_zip_eq_zipWith (fun s e => e - s) start stop, ?_, ?_, all_equal_iff bw⟩
  · intro hne heq
    rw [bar_width_ms, if_pos ⟨hne, heq⟩]
  · intro hne
    rw [bar_width_ms, if_neg]
    rintro ⟨-, h⟩
    rw [hne] at h
    exact absurd h (by simp)

/-- Claim C6 witness: concrete widths for both the uniform and the
non-uniform case. -/
theorem c6_width_collapse_witness :
    interval_vec [0, 30] [60, 90] = List.zipWith (fun s e => e - s) [0, 30] [60, 90] ∧
    ([60, 60, 60] : List ℚ) ≠ [] ∧ all_equal ([60, 60, 60] : List ℚ) = true ∧
    bar_width_ms [60, 60, 60] = Sum.inl (([60, 60, 60] : List ℚ).headI * 1000) ∧
    all_equal ([60, 60, 61] : List ℚ) = false ∧
    bar_width_ms [60, 60, 61] = Sum.inr (([60, 60, 61] : List ℚ).map fun i => i * 1000) := by
  have hne : ([60, 60, 60] : List ℚ) ≠ [] := by simp
  have heq : all_equal ([60, 60, 60] : List ℚ) = true := by norm_num [all_equal]
  have hne2 : all_equal ([60, 60, 61] : List ℚ) = false := by norm_num [all_equal]
  exact ⟨(c6_width_collapse [0, 30] [60, 90] [60, 60, 60]).1, hne, heq,
    (c6_width_collapse [0, 30] [60, 90] [60, 60, 60]).2.1 hne heq, hne2,
    (c6_width_collapse [0, 30] [60, 90] [60, 60, 61]).2.2.1 hne2⟩

/-- The kept start entries paired with the kept values are exactly the
original pairs whose value is non-null. -/
lemma keep_zip_lemma :
    ∀ (s : List ℚ) (v : List (Option ℚ)), s.length = v.length →
      ((s.zip v).filterMap keep_at_some).length =
          (v.filter fun o => o.isSome).length ∧
      ((s.zip v).filterMap keep_at_some).zip (v.filter fun o => o.isSome) =
          (s.zip v).filter fun p => p.2.isSome := by
  intro s
  induction s with
  | nil =>
    intro v hv
    have : v = [] := List.eq_nil_of_length_eq_zero hv.symm
    subst this
    exact ⟨rfl, rfl⟩
  | cons a l ih =>
    intro v hv
    cases v with
    | nil => simp at hv
    | cons o m =>
      have hlen : l.length = m.length := by
        simpa using hv
      obtain ⟨ih1, ih2⟩ := ih m hlen
      cases o with
      | none =>
        simpa [keep_at_some, List.zip_cons_cons, List.filterMap_cons,
          List.filter_cons] using ⟨ih1, ih2⟩
      | some b =>
        simpa [keep_at_some, List.zip_cons_cons, List.filterMap_cons,
          List.filter_cons] using ⟨ih1, ih2⟩

/-- Claim C7: on equal-length inputs, null stripping keeps the three
arrays in lockstep: the surviving start entries paired with the surviving
values (and likewise the stop entries) are exactly the original pairs
with non-null value in their original order, the output value array is
the non-null subsequence of the input, the three outputs have equal
lengths, and no null remains. -/
theorem c7_strip_nulls_lockstep (s e : List ℚ) (v : List (Option ℚ))
    (hs : s.length = v.length) (he : e.length = v.length) :
    (strip_nulls s e v).1.length = (strip_nulls s e v).2.2.length ∧
    (strip_nulls s e v).2.1.length = (strip_nulls s e v).2.2.length ∧
    none ∉ (strip_nulls s e v).2.2 ∧
    (strip_nulls s e v).2.2 = v.filter (fun o => o.isSome) ∧
    (strip_nulls s e v).1.zip ((strip_nulls s e v).2.2) =
        (s.zip v).filter (fun p => p.2.isSome) ∧
    (strip_nulls s e v).2.1.zip ((strip_nulls s e v).2.2) =
        (e.zip v).filter (fun p => p.2.isSome) := by
  by_cases hn : none ∈ v
  · obtain ⟨hs1, hs2⟩ := keep_zip_lemma s v hs
    obtain ⟨he1, he2⟩ := keep_zip_lemma e v he
    rw [strip_nulls, if_pos hn]
    refine ⟨hs1, he1, ?_, rfl, hs2, he2⟩
    intro hmem
    rcases List.mem_filter.mp hmem with ⟨-, hfalse⟩
    simp at hfalse
  · rw [strip_nulls, if_neg hn]
    have hfv : v.filter (fun o => o.isSome) = v := by
      rw [List.filter_eq_self]
      intro o ho
      cases o with
      | none => exact absurd ho hn
      | some b => rfl
    have hfs : (s.zip v).filter (fun p => p.2.isSome) = s.zip v := by
      rw [List.filter_eq_self]
      intro p hp
      cases hp2 : p.2 with
      | none =>
        exact absurd (by rw [← hp2]; exact List.of_mem_zip hp |>.2 :
          (none : Option ℚ) ∈ v) hn
      | some b => simp [hp2]
    have hfe : (e.zip v).filter (fun p => p.2.isSome) = e.zip v := by
      rw [List.filter_eq_self]
      intro p hp
      cases hp2 : p.2 with
      | none =>
        exact absurd (by rw [← hp2]; exact List.of_mem_zip hp |>.2 :
          (none : Option ℚ) ∈ v) hn
      | some b => simp [hp2]
    refine ⟨?_, ?_, hn, hfv.symm, by rw [hfs], by rw [hfe]⟩
    · simpa using hs
    · simpa using he

/-- Claim C7 witness: stripping one null position from three equal-length
arrays. -/
theorem c7_strip_nulls_witness :
    strip_nulls [0, 10, 20] [5, 15, 25] [some 1, none, some 3] =
      ([0, 20], [5, 25], [some 1, some 3]) ∧
    ([0, 10, 20] : List ℚ).length = ([some 1, none, some 3] : List (Option ℚ)).length ∧
    none ∉ (strip_nulls [0, 10, 20] [5, 15, 25] [some 1, none, some 3]).2.2 := by
  refine ⟨by rfl, by rfl, ?_⟩
  exact (c7_strip_nulls_lockstep [0, 10, 20] [5, 15, 25] [some 1, none, some 3]
    (by rfl) (by rfl)).2.2.1

/-- Conjunction with a low-bits mask is reduction modulo the power of
two. -/
lemma and_mask_mod (n k : Nat) : n &&& (2 ^ k - 1) = n % 2 ^ k := by
  apply Nat.eq_of_testBit_eq
  intro i
  rw [Nat.testBit_and, Nat.testBit_two_pow_sub_one, Nat.testBit_mod_two_pow,
    Bool.and_comm]

/-- Masking with a shifted mask and shifting down equals shifting down
and masking. -/
lemma and_shift_mask (n m k : Nat) : (n &&& (m <<< k)) >>> k = (n >>> k) &&& m := by
  apply Nat.eq_of_testBit_eq
  intro i
  rw [Nat.testBit_shiftRight, Nat.testBit_and, Nat.testBit_shiftLeft,
    Nat.testBit_and, Nat.testBit_shiftRight]
  have h1 : k + i ≥ k := Nat.le_add_right k i
  simp [h1, Nat.add_sub_cancel_left]

/-- Claim C8: for every packed integer below two to the 24, the CSS color
is the rrggbb hex string of the low byte as red, the middle byte as green
and the high byte as blue; in particular 0x0000FF is pure red and
0xFF0000 pure blue. -/
theorem c8_bgr_to_css (n : Nat) (h : n < 2 ^ 24) :
    bgr_to_css n = rgb_hex (n % 256) (n / 256 % 256) (n / 65536) ∧
    bgr_to_css 0x0000FF = "#ff0000" ∧
    bgr_to_css 0xFF0000 = "#0000ff" := by
  refine ⟨?_, by decide, by decide⟩
  have hred : n &&& 0x0000FF = n % 256 := by
    have := and_mask_mod n 8
    norm_num at this
    exact this
  have hgreen : (n &&& 0x00FF00) >>> 8 = n / 256 % 256 := by
    have h1 : (0x00FF00 : Nat) = 255 <<< 8 := by decide
    rw [h1, and_shift_mask]
    have h2 : (255 : Nat) = 2 ^ 8 - 1 := by decide
    rw [h2, and_mask_mod, Nat.shiftRight_eq_div_pow]
    norm_num
  have hblue : (n &&& 0xFF0000) >>> 16 = n / 65536 := by
    have h1 : (0xFF0000 : Nat) = 255 <<< 16 := by decide
    rw [h1, and_shift_mask]
    have h2 : (255 : Nat) = 2 ^ 8 - 1 := by decide
    rw [h2, and_mask_mod, Nat.shiftRight_eq_div_pow]
    have hlt : n / 2 ^ 16 < 2 ^ 8 := by
      apply Nat.div_lt_of_lt_mul
      norm_num at h ⊢
      exact h
    rw [Nat.mod_eq_of_lt hlt]
    norm_num
  rw [bgr_to_css, rgb_hex, hred, hgreen, hblue]

/-- Claim C8 witness: the pure-red packed value. -/
theorem c8_bgr_to_css_witness :
    (0x0000FF : Nat) < 2 ^ 24 ∧
    bgr_to_css 0x0000FF =
      rgb_hex (0x0000FF % 256) (0x0000FF / 256 % 256) (0x0000FF / 65536) :=
  ⟨by norm_num, (c8_bgr_to_css 0x0000FF (by norm_num)).1⟩

/-- Claim C9: with every referenced layout element carrying a configured
font family the manifest construction raises (set.remove of a missing
None member is a KeyError), refuting that it never raises; with one
family unconfigured it succeeds and yields the deduplicated configured
names; in general the construction fails exactly when no referenced
element lacks a configured family. -/
theorem c9_font_manifest_keyerror :
    font_manifest (some "Arial") (some "Times") (some "Arial") (some "Helvetica")
        none false = .error () ∧
    font_manifest (some "Arial") none (some "Arial") (some "Helvetica")
        none false = .ok ["Arial", "Helvetica"] ∧
    ∀ t a b u r hv,
      (font_manifest t a b u r hv = .error () ↔
        none ∉ font_family_list t a b u r hv) := by
  refine ⟨by rfl, by rfl, ?_⟩
  intro t a b u r hv
  rw [font_manifest]
  by_cases h : none ∈ font_family_list t a b u r hv
  · rw [if_pos h]
    simp [h]
  · rw [if_neg h]
    simp [h]

/-- Folding max over copies of the same value returns that value. -/
lemma foldl_max_all_eq (c : ℚ) :
    ∀ l : List ℚ, (∀ a ∈ l, a = c) → l.foldl max c = c := by
  intro l
  induction l with
  | nil => intro _; rfl
  | cons a m ih =>
    intro h
    have ha : a = c := h a (List.mem_cons_self a m)
    rw [List.foldl_cons, ha, max_self]
    exact ih fun x hx => h x (List.mem_cons_of_mem a hx)

/-- Folding min over copies of the same value returns that value. -/
lemma foldl_min_all_eq (c : ℚ) :
    ∀ l : List ℚ, (∀ a ∈ l, a = c) → l.foldl min c = c := by
  intro l
  induction l with
  | nil => intro _; rfl
  | cons a m ih =>
    intro h
    have ha : a = c := h a (List.mem_cons_self a m)
    rw [List.foldl_cons, ha, min_self]
    exact ih fun x hx => h x (List.mem_cons_of_mem a hx)

/-- A non-empty list of pairwise equal values has equal max and min. -/
lemma max_min_eq_of_all_eq (ys : List ℚ) (hne : ys ≠ [])
    (h : ∀ a ∈ ys, ∀ b ∈ ys, a = b) : maxQ ys = minQ ys := by
  cases ys with
  | nil => exact absurd rfl hne
  | cons c l =>
    have hc : ∀ a ∈ l, a = c :=
      fun a ha => h a (List.mem_cons_of_mem c ha) c (List.mem_cons_self c l)
    rw [maxQ, minQ, foldl_max_all_eq c l hc, foldl_min_all_eq c l hc]

/-- The y range with both bounds supplied. -/
lemma yrange_of_both (lo hi : ℚ) (ys : List ℚ) :
    yrange_of (some lo, some hi) ys = hi - lo := rfl

/-- The y range with at least one bound missing is the data spread. -/
lemma yrange_of_auto (olo ohi : Option ℚ) (ys : List ℚ)
    (h : olo = none ∨ ohi = none) :
    yrange_of (olo, ohi) ys = maxQ ys - minQ ys := by
  rcases h with h | h <;> subst h
  · rfl
  · cases olo <;> rfl

/-- A non-zero data spread exhibits two distinct elements. -/
lemma auto_range_ne (ys : List ℚ) (hys : ys ≠ [])
    (h : maxQ ys - minQ ys ≠ 0) : ∃ a ∈ ys, ∃ b ∈ ys, a ≠ b := by
  by_contra hcon
  push_neg at hcon
  have hall : ∀ a ∈ ys, ∀ b ∈ ys, a = b := fun a ha b hb => hcon a ha b hb
  exact h (by rw [max_min_eq_of_all_eq ys hys hall]; ring)

/-- Claim C10: with a non-empty sample list and non-degenerate pixel
sizes, the aspect-ratio scale computation succeeds only when either both
y bounds are supplied with different values or the rotated imaginary
components are not all equal; whenever the computed y range is zero the
final division divides by zero and the computation aborts, so no segment
series is produced. -/
theorem c10_vector_scale_division (yscale : Option ℚ × Option ℚ)
    (plot_w plot_h minstamp maxstamp : ℚ) (ys : List ℚ)
    (hys : ys ≠ []) (hw : plot_w ≠ 0) (hh : plot_h ≠ 0) :
    (vector_scales yscale plot_w plot_h minstamp maxstamp ys ≠ .error () →
      (∃ lo hi, yscale = (some lo, some hi) ∧ lo ≠ hi) ∨
        ∃ a ∈ ys, ∃ b ∈ ys, a ≠ b) ∧
    (yrange_of yscale ys = 0 →
      vector_scales yscale plot_w plot_h minstamp maxstamp ys = .error ()) := by
  have hx : checked_div (maxstamp - minstamp) plot_w =
      .ok ((maxstamp - minstamp) / plot_w) := by
    simp [checked_div, hw]
  have hy : checked_div (yrange_of yscale ys) plot_h =
      .ok (yrange_of yscale ys / plot_h) := by
    simp [checked_div, hh]
  have herr : yrange_of yscale ys = 0 →
      vector_scales yscale plot_w plot_h minstamp maxstamp ys = .error () := by
    intro h0
    simp only [vector_scales, hx, hy, h0, zero_div]
    simp [checked_div, hh]
  refine ⟨?_, herr⟩
  intro hok
  have hyr : yrange_of yscale ys ≠ 0 := fun h0 => hok (herr h0)
  rcases yscale with ⟨olo, ohi⟩
  rcases holo : olo with _ | lo
  · right
    subst holo
    rw [yrange_of_auto none ohi ys (Or.inl rfl)] at hyr
    exact auto_range_ne ys hys hyr
  · rcases hohi : ohi with _ | hi
    · right
      subst holo hohi
      rw [yrange_of_auto (some lo) none ys (Or.inr rfl)] at hyr
      exact auto_range_ne ys hys hyr
    · left
      subst holo hohi
      rw [yrange_of_both lo hi ys] at hyr
      exact ⟨lo, hi, rfl, fun heq => hyr (by rw [heq]; ring)⟩

/-- Claim C10 witness: a single sample under automatic y scaling has a
zero y range and the scale computation divides by zero. -/
theorem c10_zero_range_witness :
    ([2] : List ℚ) ≠ [] ∧
    yrange_of (none, none) ([2] : List ℚ) = 0 ∧
    vector_scales (none, none) 100 100 0 86400 [2] = .error () := by
  have h0 : yrange_of ((none : Option ℚ), (none : Option ℚ)) ([2] : List ℚ) = 0 := by
    rw [yrange_of_auto none none [2] (Or.inl rfl)]
    norm_num [maxQ, minQ]
  refine ⟨by simp, h0,
    (c10_vector_scale_division (none, none) 100 100 0 86400 [2]
      (by simp) (by norm_num) (by norm_num)).2 h0⟩

end Plotly
